import Mathlib

/-!
Verification development for the LSP URI/location translation and
client-capability negotiation layer of `main/lsp/LSPConfiguration.cc`.

Strings are embedded as lists of characters (`Str := List Char`); the
C++ string operations used by the source (`substr`, `StartsWith`,
`EndsWith`, `StrCat`, `StrReplaceAll`, indexing) become the
corresponding list operations.  Fallible operations (a failed
assertion, `std::string_view::at` out of range) are embedded as
`Option` results, with `none` for the fault.
-/

namespace SorbetLSP

abbrev Str := List Char

/-- Constant from the source: the synthetic URI scheme. -/
def sorbetScheme : Str := "sorbet:".toList

/-- Constant from the source: the scheme tested for external links. -/
def httpsScheme : Str := "https".toList

/-- The two markup kinds of the protocol (from the LSP enumeration). -/
inductive MarkupKind where
  | Markdown
  | Plaintext
deriving DecidableEq, Repr

/-- Embeds the anonymous-namespace helper `getPreferredMarkupKind`:
a `std::find` for `MarkupKind::Markdown` over the advertised formats,
returning Markdown when found and Plaintext otherwise. -/
def getPreferredMarkupKind (formats : List MarkupKind) : MarkupKind :=
  match formats.find? (fun k => k == MarkupKind.Markdown) with
  | some _ => MarkupKind.Markdown
  | none => MarkupKind.Plaintext

/-- The negotiated client configuration (`LSPClientConfiguration`).
Default field values are the ones the constructor leaves in place when
the corresponding handshake field is absent.  Modelled from the spec:
the defaults live in the class definition in the header, which is not
among the given sources; the spec states rootUri defaults to empty,
markup kinds to Plaintext, and all booleans to false. -/
structure LSPClientConfiguration where
  rootUri : Str := []
  clientCompletionItemSnippetSupport : Bool := false
  clientCompletionItemMarkupKind : MarkupKind := MarkupKind.Plaintext
  clientHoverMarkupKind : MarkupKind := MarkupKind.Plaintext
  enableOperationNotifications : Bool := false
  enableTypecheckInfo : Bool := false
  enableSorbetURIs : Bool := false
deriving DecidableEq, Repr

/-- Handshake capabilities nested under
`textDocument.completion.completionItem`. -/
structure CompletionItemCaps where
  snippetSupport : Option Bool := none
  documentationFormat : Option (List MarkupKind) := none
deriving DecidableEq, Repr

/-- Handshake capabilities nested under `textDocument.completion`. -/
structure CompletionCaps where
  completionItem : Option CompletionItemCaps := none
deriving DecidableEq, Repr

/-- Handshake capabilities nested under `textDocument.hover`. -/
structure HoverCaps where
  contentFormat : Option (List MarkupKind) := none
deriving DecidableEq, Repr

/-- Handshake capabilities nested under `capabilities.textDocument`. -/
structure TextDocumentCaps where
  completion : Option CompletionCaps := none
  hover : Option HoverCaps := none
deriving DecidableEq, Repr

/-- The optional `initializationOptions` payload of the handshake. -/
structure SorbetInitOptions where
  supportsOperationNotifications : Option Bool := none
  enableTypecheckInfo : Option Bool := none
  supportsSorbetURIs : Option Bool := none
deriving DecidableEq, Repr

/-- The handshake payload (`InitializeParams`).  `rootUri` is `some s`
when the variant holds a string and `none` otherwise
(`get_if<string>` failing). -/
structure InitializeParams where
  rootUri : Option Str := none
  textDocument : Option TextDocumentCaps := none
  initializationOptions : Option SorbetInitOptions := none

/-- The rootUri computation of the `LSPClientConfiguration`
constructor: strip one trailing slash when `absl::EndsWith(s, "/")`,
keep the default (empty) when the variant holds no string. -/
def negotiateRootUri : Option Str → Str
  | some s => if s.getLast? = some '/' then s.dropLast else s
  | none => []

/-- The snippet-support computation of the constructor: read
`textDocument.completion.completionItem.snippetSupport` with
`value_or(false)`; any absent layer leaves the default `false`. -/
def negotiateSnippet : Option TextDocumentCaps → Bool
  | some td =>
    match td.completion with
    | some compl =>
      match compl.completionItem with
      | some item => item.snippetSupport.getD false
      | none => false
    | none => false
  | none => false

/-- Resolution of an optional advertised format list: an absent list
keeps the default Plaintext, a present list goes through
`getPreferredMarkupKind`. -/
def resolveDocumentationFormat : Option (List MarkupKind) → MarkupKind
  | some fmts => getPreferredMarkupKind fmts
  | none => MarkupKind.Plaintext

/-- The completion markup-kind computation of the constructor, reading
`textDocument.completion.completionItem.documentationFormat`. -/
def negotiateCompletionKind : Option TextDocumentCaps → MarkupKind
  | some td =>
    match td.completion with
    | some compl =>
      match compl.completionItem with
      | some item => resolveDocumentationFormat item.documentationFormat
      | none => MarkupKind.Plaintext
    | none => MarkupKind.Plaintext
  | none => MarkupKind.Plaintext

/-- The hover markup-kind computation of the constructor, reading
`textDocument.hover.contentFormat`. -/
def negotiateHoverKind : Option TextDocumentCaps → MarkupKind
  | some td =>
    match td.hover with
    | some hov => resolveDocumentationFormat hov.contentFormat
    | none => MarkupKind.Plaintext
  | none => MarkupKind.Plaintext

/-- One of the three initialization-option booleans: present payload
reads the field with `value_or(false)`, absent payload keeps `false`. -/
def negotiateInitOption (field : SorbetInitOptions → Option Bool) :
    Option SorbetInitOptions → Bool
  | some opts => (field opts).getD false
  | none => false

/-- The `LSPClientConfiguration` constructor over a handshake payload. -/
def LSPClientConfiguration.fromParams (p : InitializeParams) :
    LSPClientConfiguration where
  rootUri := negotiateRootUri p.rootUri
  clientCompletionItemSnippetSupport := negotiateSnippet p.textDocument
  clientCompletionItemMarkupKind := negotiateCompletionKind p.textDocument
  clientHoverMarkupKind := negotiateHoverKind p.textDocument
  enableOperationNotifications :=
    negotiateInitOption SorbetInitOptions.supportsOperationNotifications
      p.initializationOptions
  enableTypecheckInfo :=
    negotiateInitOption SorbetInitOptions.enableTypecheckInfo
      p.initializationOptions
  enableSorbetURIs :=
    negotiateInitOption SorbetInitOptions.supportsSorbetURIs
      p.initializationOptions

/-- The session configuration (`LSPConfiguration`) with the client
configuration already installed, as every translator operation
requires (`assertHasClientConfig`).  The field `isMissingFromClient`
embeds the external collaborator call
`FileOps::isFileIgnored(rootPath, filePath, opts.lspDirsMissingFromClient, {})`;
modelled from the spec as an opaque-to-this-core ignore-pattern
matcher over the file path. -/
structure LSPConfiguration where
  rootPath : Str
  clientConfig : LSPClientConfiguration
  isMissingFromClient : Str → Bool

/-- One step of `*start == '/' → ++start`: drop a single leading
slash when present. -/
def stripLeadingSlash : Str → Str
  | [] => []
  | c :: rest => if c = '/' then rest else c :: rest

/-- Embeds `absl::StrReplaceAll(path, {{"%3A", ":"}})`: replace every
non-overlapping occurrence of `%3A`, scanning left to right. -/
def decode3A : Str → Str
  | '%' :: '3' :: 'A' :: rest => ':' :: decode3A rest
  | c :: rest => c :: decode3A rest
  | [] => []

/-- Embeds `LSPConfiguration::localName2Remote`.  `none` models the
two fault paths: the `ENFORCE` of the rootPath-precondition, and
`relativeUri.at(0)` raising `std::out_of_range` when the remainder
after removing `rootPath` is empty. -/
def localName2Remote (cfg : LSPConfiguration) (filePath : Str) : Option Str :=
  if cfg.rootPath <+: filePath then
    match filePath.drop cfg.rootPath.length with
    | [] => none
    | c :: rest =>
      let relativeUri := if c = '/' then rest else c :: rest
      if cfg.clientConfig.rootUri = [] then
        some relativeUri
      else if cfg.clientConfig.enableSorbetURIs = true ∧
          cfg.isMissingFromClient filePath = true then
        some (sorbetScheme ++ relativeUri)
      else
        some (cfg.clientConfig.rootUri ++ '/' :: relativeUri)
  else
    none

/-- The guard of the logged identity-fallback branch of
`remoteName2Local`: the URI starts with neither the client rootUri nor
the synthetic scheme, and the client lacks synthetic-scheme support. -/
def unrecognizedUri (cfg : LSPConfiguration) (uri : Str) : Prop :=
  ¬(cfg.clientConfig.rootUri <+: uri) ∧
    cfg.clientConfig.enableSorbetURIs = false ∧
    ¬(sorbetScheme <+: uri)

instance (cfg : LSPConfiguration) (uri : Str) :
    Decidable (unrecognizedUri cfg uri) := by
  unfold unrecognizedUri
  infer_instance

/-- The non-fallback computation of `remoteName2Local`: strip the
matched root (synthetic scheme or rootUri) and one leading slash, test
for the https special case on the single character after `https`, and
otherwise apply the rootPath-relative mapping. -/
def resolveUri (cfg : LSPConfiguration) (uri : Str) : Str :=
  let root := if sorbetScheme <+: uri then sorbetScheme
              else cfg.clientConfig.rootUri
  let path := stripLeadingSlash (uri.drop root.length)
  if (sorbetScheme <+: uri) ∧ httpsScheme <+: path ∧
      httpsScheme.length < path.length ∧
      (path[httpsScheme.length]? = some ':' ∨
        path[httpsScheme.length]? = some '%') then
    decode3A path
  else if cfg.rootPath ≠ [] then
    cfg.rootPath ++ '/' :: path
  else
    path

/-- Embeds `LSPConfiguration::remoteName2Local`: the logged fallback
returns the URI unchanged, every other URI is resolved. -/
def remoteName2Local (cfg : LSPConfiguration) (uri : Str) : Str :=
  if unrecognizedUri cfg uri then uri else resolveUri cfg uri

/-- A file table entry: path and payload flag (`File::isPayload`).
Modelled from the spec: the file table is an external collaborator;
a payload file is a virtual or built-in source. -/
structure FileData where
  path : Str
  payload : Bool
deriving DecidableEq, Repr

/-- The external file table: a file reference resolves to its data, or
to nothing for a nonexistent reference.  Modelled from the spec:
`file.exists()` and `file.data(gs)` live outside the given sources. -/
def GlobalState := Nat → Option FileData

/-- Embeds `LSPConfiguration::fileRef2Uri`.  The result is an `Option`
only because the non-payload branch delegates to `localName2Remote`. -/
def fileRef2Uri (cfg : LSPConfiguration) (gs : GlobalState) (file : Nat) :
    Option Str :=
  match gs file with
  | none => some ("???".toList)
  | some fd =>
    if fd.payload then
      if cfg.clientConfig.enableSorbetURIs then
        some (sorbetScheme ++ fd.path)
      else
        some fd.path
    else
      localName2Remote cfg fd.path

/-- A protocol position: 0-based line and character. -/
structure Position where
  line : Nat
  character : Nat
deriving DecidableEq, Repr

/-- An internal line/column pair (`core::Loc::Detail`), 1-based. -/
structure LocDetail where
  line : Nat
  column : Nat
deriving DecidableEq, Repr

/-- An internal location (`core::Loc`): file reference plus a byte
offset pair. -/
structure Loc where
  fref : Nat
  beginPos : Nat
  endPos : Nat
deriving DecidableEq, Repr

/-- The `reqPos` computed by `lspPos2Loc`: both coordinates
incremented by one (0-based protocol to 1-based internal). -/
def lspReqPos (pos : Position) : LocDetail :=
  { line := pos.line + 1, column := pos.character + 1 }

/-- Embeds `LSPConfiguration::lspPos2Loc`.  The byte-offset resolution
`core::Loc::pos2Offset` is outside the given sources; modelled from
the spec as an external line-offset table, passed as a function. -/
def lspPos2Loc (posToOffset : LocDetail → Nat) (fref : Nat)
    (pos : Position) : Loc :=
  let offset := posToOffset (lspReqPos pos)
  { fref := fref, beginPos := offset, endPos := offset }

/-- The message of the double-install fault in `setClientConfig`. -/
def setClientConfigMsg : Str :=
  "Cannot call setClientConfig twice in one session!".toList

/-- Outcome of a `setClientConfig` call: normal return, or
`Exception::raise` with its message. -/
inductive SetClientConfigResult where
  | ok
  | raised (msg : Str)
deriving DecidableEq, Repr

/-- Embeds `LSPConfiguration::setClientConfig` as a step on the
write-once slot: raise (leaving the slot untouched) when already set,
install otherwise. -/
def setClientConfigStep (current : Option LSPClientConfiguration)
    (cfg : LSPClientConfiguration) :
    SetClientConfigResult × Option LSPClientConfiguration :=
  match current with
  | some existing => (.raised setClientConfigMsg, some existing)
  | none => (.ok, some cfg)

/-! ### Concrete session configurations used by witnesses and
counterexamples -/

/-- A session configuration with an empty client rootUri (the Monaco
special case) and no ignore patterns. -/
def cfgEmptyRoot : LSPConfiguration where
  rootPath := "/root".toList
  clientConfig := {}
  isMissingFromClient := fun _ => false

/-- A session configuration with a file rootUri and no ignore
patterns. -/
def cfgFileRoot : LSPConfiguration where
  rootPath := "/root".toList
  clientConfig := { rootUri := "file:///w".toList }
  isMissingFromClient := fun _ => false

/-- A concrete file table: reference 1 is a payload file, reference 2
a workspace file, everything else nonexistent. -/
def gsW : GlobalState := fun n =>
  if n = 1 then some { path := "pay.rbi".toList, payload := true }
  else if n = 2 then some { path := "/root/a.rb".toList, payload := false }
  else none

/-! ### Helper lemmas -/

theorem stripLeadingSlash_of_head_ne (l : Str) (h : l.head? ≠ some '/') :
    stripLeadingSlash l = l := by
  cases l with
  | nil => rfl
  | cons c rest =>
    simp only [List.head?] at h
    have hc : ¬ (c = '/') := fun hc => h (by rw [hc])
    simp [stripLeadingSlash, hc]

/-- A URI of the form rootUri ++ "/" ++ rel starts with the synthetic
scheme only when the rootUri itself does: the scheme contains no
slash, so the slash separator blocks any straddling match. -/
theorem sorbetScheme_not_prefix_append (ru rel : Str)
    (h : ¬ sorbetScheme <+: ru) :
    ¬ sorbetScheme <+: (ru ++ '/' :: rel) := by
  intro hp
  rcases Nat.lt_or_ge ru.length sorbetScheme.length with hlen | hlen
  · obtain ⟨t2, ht2⟩ := hp
    have h1 : (ru ++ '/' :: rel)[ru.length]? = some '/' := by
      rw [List.getElem?_append_right (Nat.le_refl _)]
      simp
    have h2 : (ru ++ '/' :: rel)[ru.length]? = sorbetScheme[ru.length]? := by
      rw [← ht2, List.getElem?_append_left hlen]
    have h3 : sorbetScheme[ru.length]? = some '/' := by rw [← h2, h1]
    have h7 : ru.length < 7 := by
      rw [show sorbetScheme.length = 7 from rfl] at hlen
      exact hlen
    have hsplit : ru.length = 0 ∨ ru.length = 1 ∨ ru.length = 2 ∨
        ru.length = 3 ∨ ru.length = 4 ∨ ru.length = 5 ∨ ru.length = 6 := by
      omega
    rcases hsplit with h0 | h0 | h0 | h0 | h0 | h0 | h0 <;>
      rw [h0] at h3 <;> exact absurd h3 (by decide)
  · exact h (List.prefix_of_prefix_length_le hp ⟨'/' :: rel, rfl⟩ hlen)

/-- Evaluation of `remoteName2Local` on a synthetic-scheme URI whose
remainder does not start with a slash. -/
theorem remoteName2Local_sorbet (cfg : LSPConfiguration) (rem : Str)
    (h : rem.head? ≠ some '/') :
    remoteName2Local cfg (sorbetScheme ++ rem) =
      (if httpsScheme <+: rem ∧ httpsScheme.length < rem.length ∧
          (rem[httpsScheme.length]? = some ':' ∨
            rem[httpsScheme.length]? = some '%')
       then decode3A rem
       else if cfg.rootPath ≠ [] then cfg.rootPath ++ '/' :: rem
       else rem) := by
  have hsorb : sorbetScheme <+: sorbetScheme ++ rem := ⟨rem, rfl⟩
  have hnu : ¬ unrecognizedUri cfg (sorbetScheme ++ rem) :=
    fun hu => hu.2.2 hsorb
  unfold remoteName2Local
  rw [if_neg hnu]
  simp only [resolveUri]
  rw [if_pos hsorb, List.drop_left, stripLeadingSlash_of_head_ne rem h]
  simp only [eq_true hsorb, true_and]

/-- Evaluation of `remoteName2Local` on a synthetic-scheme URI with a
slash between the scheme and the remainder. -/
theorem remoteName2Local_sorbet_slash (cfg : LSPConfiguration) (rem : Str) :
    remoteName2Local cfg (sorbetScheme ++ '/' :: rem) =
      (if httpsScheme <+: rem ∧ httpsScheme.length < rem.length ∧
          (rem[httpsScheme.length]? = some ':' ∨
            rem[httpsScheme.length]? = some '%')
       then decode3A rem
       else if cfg.rootPath ≠ [] then cfg.rootPath ++ '/' :: rem
       else rem) := by
  have hsorb : sorbetScheme <+: sorbetScheme ++ '/' :: rem := ⟨'/' :: rem, rfl⟩
  have hnu : ¬ unrecognizedUri cfg (sorbetScheme ++ '/' :: rem) :=
    fun hu => hu.2.2 hsorb
  have hstrip : stripLeadingSlash ('/' :: rem) = rem := by
    simp [stripLeadingSlash]
  unfold remoteName2Local
  rw [if_neg hnu]
  simp only [resolveUri]
  rw [if_pos hsorb, List.drop_left, hstrip]
  simp only [eq_true hsorb, true_and]

/-! ### Claims -/

/-- C2 (amended): on a synthetic-scheme URI whose remainder (after the
scheme and one optional leading slash) begins with https followed by a
colon or by a percent character — the code tests only the single
character after https, not the full sequence %3A — `remoteName2Local`
decodes every occurrence of %3A to a colon and returns the result
verbatim without prefixing rootPath; a remainder beginning with https
followed by any character other than colon or percent takes the
rootPath-relative mapping; in particular the URI
sorbet:https%3A//example.com/x decodes to https://example.com/x. -/
theorem c2_https_special_case (cfg : LSPConfiguration) (c : Char)
    (rest : Str) :
    remoteName2Local cfg (sorbetScheme ++ (httpsScheme ++ c :: rest)) =
      (if c = ':' ∨ c = '%' then decode3A (httpsScheme ++ c :: rest)
       else if cfg.rootPath ≠ [] then
         cfg.rootPath ++ '/' :: (httpsScheme ++ c :: rest)
       else httpsScheme ++ c :: rest) ∧
    remoteName2Local cfg (sorbetScheme ++ '/' :: (httpsScheme ++ c :: rest)) =
      (if c = ':' ∨ c = '%' then decode3A (httpsScheme ++ c :: rest)
       else if cfg.rootPath ≠ [] then
         cfg.rootPath ++ '/' :: (httpsScheme ++ c :: rest)
       else httpsScheme ++ c :: rest) ∧
    remoteName2Local cfg ("sorbet:https%3A//example.com/x".toList) =
      "https://example.com/x".toList := by
  have hhead : (httpsScheme ++ c :: rest).head? ≠ some '/' := by
    intro hcontra
    rw [show (httpsScheme ++ c :: rest) =
      'h' :: ("ttps".toList ++ c :: rest) from rfl] at hcontra
    simp only [List.head?] at hcontra
    exact absurd hcontra (by decide)
  have hpre : httpsScheme <+: httpsScheme ++ c :: rest := ⟨c :: rest, rfl⟩
  have hlen : httpsScheme.length < (httpsScheme ++ c :: rest).length := by
    simp only [List.length_append, List.length_cons]
    omega
  have hget : (httpsScheme ++ c :: rest)[httpsScheme.length]? = some c := by
    rw [List.getElem?_append_right (Nat.le_refl _)]
    simp
  have hiff : (httpsScheme <+: httpsScheme ++ c :: rest ∧
      httpsScheme.length < (httpsScheme ++ c :: rest).length ∧
      ((httpsScheme ++ c :: rest)[httpsScheme.length]? = some ':' ∨
        (httpsScheme ++ c :: rest)[httpsScheme.length]? = some '%')) ↔
      (c = ':' ∨ c = '%') := by
    rw [hget]
    constructor
    · rintro ⟨-, -, hor⟩
      simpa using hor
    · intro hor
      exact ⟨hpre, hlen, by simpa using hor⟩
  refine ⟨?_, ?_, ?_⟩
  · rw [remoteName2Local_sorbet cfg _ hhead]
    exact if_congr hiff rfl rfl
  · rw [remoteName2Local_sorbet_slash cfg _]
    exact if_congr hiff rfl rfl
  · rw [show "sorbet:https%3A//example.com/x".toList =
      sorbetScheme ++ ("https%3A//example.com/x".toList) from rfl]
    rw [remoteName2Local_sorbet cfg _ (by decide)]
    rw [if_pos (by decide)]
    decide

/-- C2 counterexample: the claim as stated requires a remainder
beginning with https followed by a percent character that does not
open the sequence %3A to take the rootPath-relative mapping, but the
code routes every percent character to the verbatim decode branch:
sorbet:https%2F resolves to https%2F, not to /root/https%2F. -/
theorem c2_https_counterexample :
    remoteName2Local cfgEmptyRoot ("sorbet:https%2F".toList) =
      "https%2F".toList ∧
    cfgEmptyRoot.rootPath ≠ [] ∧
    "https%2F".toList ≠
      cfgEmptyRoot.rootPath ++ '/' :: "https%2F".toList :=
  ⟨by decide, by decide, by decide⟩

/-- C1 (amended): for every path of the form rootPath ++ "/" ++ rel
with rootPath nonempty, rel nonempty and not beginning with a slash,
with the client configuration installed, `enableSorbetURIs` false, the
missing-from-client ignore rules not matching the path, and with
neither the client rootUri nor (when the rootUri is empty) rel
beginning with the synthetic scheme, the translation round-trips:
`remoteName2Local` of `localName2Remote` of the path returns the path. -/
theorem c1_roundtrip (cfg : LSPConfiguration) (rel : Str)
    (hrp : cfg.rootPath ≠ [])
    (hrel : rel ≠ [])
    (hslash : rel.head? ≠ some '/')
    (hsorb : cfg.clientConfig.enableSorbetURIs = false)
    (hign : cfg.isMissingFromClient (cfg.rootPath ++ '/' :: rel) = false)
    (hru : ¬ sorbetScheme <+: cfg.clientConfig.rootUri)
    (hrelsorb : cfg.clientConfig.rootUri = [] → ¬ sorbetScheme <+: rel) :
    ∃ u, localName2Remote cfg (cfg.rootPath ++ '/' :: rel) = some u ∧
      remoteName2Local cfg u = cfg.rootPath ++ '/' :: rel := by
  have hpre : cfg.rootPath <+: cfg.rootPath ++ '/' :: rel := ⟨'/' :: rel, rfl⟩
  have hdrop : (cfg.rootPath ++ '/' :: rel).drop cfg.rootPath.length =
      '/' :: rel := List.drop_left _ _
  have hlocal : localName2Remote cfg (cfg.rootPath ++ '/' :: rel) =
      some (if cfg.clientConfig.rootUri = [] then rel
            else cfg.clientConfig.rootUri ++ '/' :: rel) := by
    unfold localName2Remote
    rw [hdrop, if_pos hpre]
    by_cases hru0 : cfg.clientConfig.rootUri = [] <;> simp [hsorb, hru0]
  by_cases hru0 : cfg.clientConfig.rootUri = []
  · refine ⟨rel, by rw [hlocal, if_pos hru0], ?_⟩
    have hnsorb : ¬ sorbetScheme <+: rel := hrelsorb hru0
    have hpre0 : cfg.clientConfig.rootUri <+: rel := hru0 ▸ ⟨rel, rfl⟩
    have hnu : ¬ unrecognizedUri cfg rel := fun hu => hu.1 hpre0
    unfold remoteName2Local
    rw [if_neg hnu]
    simp only [resolveUri]
    rw [if_neg hnsorb, hru0]
    simp only [List.length_nil, List.drop_zero]
    rw [stripLeadingSlash_of_head_ne rel hslash]
    rw [if_neg (fun hh => hnsorb hh.1), if_pos hrp]
  · refine ⟨_, by rw [hlocal, if_neg hru0], ?_⟩
    have hnsorbU :
        ¬ sorbetScheme <+: (cfg.clientConfig.rootUri ++ '/' :: rel) :=
      sorbetScheme_not_prefix_append _ _ hru
    have hpreU : cfg.clientConfig.rootUri <+:
        cfg.clientConfig.rootUri ++ '/' :: rel := ⟨'/' :: rel, rfl⟩
    have hnu :
        ¬ unrecognizedUri cfg (cfg.clientConfig.rootUri ++ '/' :: rel) :=
      fun hu => hu.1 hpreU
    have hstrip : stripLeadingSlash ('/' :: rel) = rel := by
      simp [stripLeadingSlash]
    unfold remoteName2Local
    rw [if_neg hnu]
    simp only [resolveUri]
    rw [if_neg hnsorbU, List.drop_left, hstrip]
    rw [if_neg (fun hh => hnsorbU hh.1), if_pos hrp]

/-- C1 witness: a concrete workspace file under a file rootUri. -/
theorem c1_roundtrip_witness :
    ∃ u, localName2Remote cfgFileRoot
        (cfgFileRoot.rootPath ++ '/' :: "x.rb".toList) = some u ∧
      remoteName2Local cfgFileRoot u =
        cfgFileRoot.rootPath ++ '/' :: "x.rb".toList :=
  c1_roundtrip cfgFileRoot ("x.rb".toList) (by decide) (by decide)
    (by decide) rfl rfl (by decide) (by decide)

/-- C1 counterexample: the claim as stated has no restriction keeping
the relative part away from the synthetic scheme; with an empty client
rootUri the path /root/sorbet:x (strictly under rootPath /root, not
ignored, synthetic scheme disabled) maps to the URI sorbet:x, which
`remoteName2Local` then strips as a synthetic-scheme URI, yielding
/root/x instead of the original path. -/
theorem c1_roundtrip_counterexample :
    localName2Remote cfgEmptyRoot ("/root/sorbet:x".toList) =
      some ("sorbet:x".toList) ∧
    cfgEmptyRoot.clientConfig.enableSorbetURIs = false ∧
    cfgEmptyRoot.isMissingFromClient ("/root/sorbet:x".toList) = false ∧
    remoteName2Local cfgEmptyRoot ("sorbet:x".toList) = "/root/x".toList ∧
    "/root/x".toList ≠ "/root/sorbet:x".toList :=
  ⟨by decide, rfl, rfl, by decide, by decide⟩

/-- C3 (amended): for every path that begins with `rootPath` and
strictly extends it, `localName2Remote` succeeds: it removes the
rootPath prefix and a single leading slash when present, and every
remaining branch returns a string.  (The claim as stated also covers
`path == rootPath`, where the code faults; see the counterexample.) -/
theorem c3_localName2Remote_succeeds (cfg : LSPConfiguration) (path : Str)
    (h1 : cfg.rootPath <+: path) (h2 : path ≠ cfg.rootPath) :
    ∃ u, localName2Remote cfg path = some u := by
  obtain ⟨t, ht⟩ := h1
  have ht' : path.drop cfg.rootPath.length = t := by
    rw [← ht]
    exact List.drop_left _ _
  unfold localName2Remote
  rw [ht']
  split
  · cases t with
    | nil =>
      exfalso
      apply h2
      rw [← ht, List.append_nil]
    | cons c rest =>
      by_cases hru : cfg.clientConfig.rootUri = [] <;>
        by_cases hs : (cfg.clientConfig.enableSorbetURIs = true ∧
          cfg.isMissingFromClient path = true) <;>
        simp [hru, hs]
  · exact absurd (⟨t, ht⟩ : cfg.rootPath <+: path) (by assumption)

/-- C3 witness: a concrete strict extension of the root path. -/
theorem c3_localName2Remote_succeeds_witness :
    cfgEmptyRoot.rootPath <+: "/root/x.rb".toList ∧
    "/root/x.rb".toList ≠ cfgEmptyRoot.rootPath ∧
    ∃ u, localName2Remote cfgEmptyRoot ("/root/x.rb".toList) = some u :=
  ⟨by decide, by decide,
    c3_localName2Remote_succeeds cfgEmptyRoot _ (by decide) (by decide)⟩

/-- C3 counterexample: at `path == rootPath` the claim asserts success,
but the remainder after removing `rootPath` is empty and
`relativeUri.at(0)` faults (`std::out_of_range`), embedded as `none`. -/
theorem c3_localName2Remote_counterexample :
    cfgEmptyRoot.rootPath <+: cfgEmptyRoot.rootPath ∧
    localName2Remote cfgEmptyRoot cfgEmptyRoot.rootPath = none :=
  ⟨by decide, by decide⟩

/-- C4: a URI starting with neither the synthetic scheme nor the
client rootUri, with a client lacking synthetic-scheme support, takes
the logged fallback branch and is returned unchanged; the embedding is
total, so no fault is possible on this path. -/
theorem c4_unrecognized_identity (cfg : LSPConfiguration) (uri : Str)
    (h1 : ¬ sorbetScheme <+: uri)
    (h2 : ¬ cfg.clientConfig.rootUri <+: uri)
    (h3 : cfg.clientConfig.enableSorbetURIs = false) :
    remoteName2Local cfg uri = uri := by
  have hu : unrecognizedUri cfg uri := ⟨h2, h3, h1⟩
  unfold remoteName2Local
  rw [if_pos hu]

/-- C4 witness: a concrete unrecognized URI. -/
theorem c4_unrecognized_identity_witness :
    (¬ sorbetScheme <+: "untitled:a".toList) ∧
    (¬ cfgFileRoot.clientConfig.rootUri <+: "untitled:a".toList) ∧
    cfgFileRoot.clientConfig.enableSorbetURIs = false ∧
    remoteName2Local cfgFileRoot ("untitled:a".toList) = "untitled:a".toList :=
  ⟨by decide, by decide, rfl,
    c4_unrecognized_identity cfgFileRoot _ (by decide) (by decide) rfl⟩

/-- C5: `getPreferredMarkupKind` is a pure membership test for
Markdown (Markdown anywhere in the list resolves to Markdown, else
Plaintext), so any two lists agreeing on Markdown membership resolve
to the same kind, and an absent list resolves to Plaintext. -/
theorem c5_markup_membership (formats l1 l2 : List MarkupKind) :
    getPreferredMarkupKind formats =
      (if MarkupKind.Markdown ∈ formats then MarkupKind.Markdown
       else MarkupKind.Plaintext) ∧
    ((MarkupKind.Markdown ∈ l1 ↔ MarkupKind.Markdown ∈ l2) →
      getPreferredMarkupKind l1 = getPreferredMarkupKind l2) ∧
    resolveDocumentationFormat none = MarkupKind.Plaintext := by
  have key : ∀ fs : List MarkupKind, getPreferredMarkupKind fs =
      (if MarkupKind.Markdown ∈ fs then MarkupKind.Markdown
       else MarkupKind.Plaintext) := by
    intro fs
    unfold getPreferredMarkupKind
    by_cases hm : MarkupKind.Markdown ∈ fs
    · have hs : (fs.find? (fun k => k == MarkupKind.Markdown)).isSome := by
        rw [List.find?_isSome]
        exact ⟨MarkupKind.Markdown, hm, by simp⟩
      obtain ⟨v, hv⟩ := Option.isSome_iff_exists.mp hs
      rw [hv, if_pos hm]
    · have hn : fs.find? (fun k => k == MarkupKind.Markdown) = none := by
        rw [List.find?_eq_none]
        intro x hx hbeq
        exact hm ((eq_of_beq hbeq) ▸ hx)
      rw [hn, if_neg hm]
  refine ⟨key formats, ?_, rfl⟩
  intro hiff
  rw [key l1, key l2]
  by_cases h1 : MarkupKind.Markdown ∈ l1
  · rw [if_pos h1, if_pos (hiff.mp h1)]
  · rw [if_neg h1, if_neg (fun h => h1 (hiff.mpr h))]

/-- C5 witness: concrete lists agreeing on Markdown membership. -/
theorem c5_markup_membership_witness :
    getPreferredMarkupKind [MarkupKind.Plaintext, MarkupKind.Markdown] =
      (if MarkupKind.Markdown ∈ [MarkupKind.Plaintext, MarkupKind.Markdown]
       then MarkupKind.Markdown else MarkupKind.Plaintext) ∧
    getPreferredMarkupKind [MarkupKind.Plaintext, MarkupKind.Markdown] =
      getPreferredMarkupKind [MarkupKind.Markdown] ∧
    resolveDocumentationFormat none = MarkupKind.Plaintext :=
  ⟨(c5_markup_membership [MarkupKind.Plaintext, MarkupKind.Markdown]
      [MarkupKind.Plaintext, MarkupKind.Markdown] [MarkupKind.Markdown]).1,
    (c5_markup_membership [MarkupKind.Plaintext, MarkupKind.Markdown]
      [MarkupKind.Plaintext, MarkupKind.Markdown] [MarkupKind.Markdown]).2.1
      (by decide),
    (c5_markup_membership [MarkupKind.Plaintext, MarkupKind.Markdown]
      [MarkupKind.Plaintext, MarkupKind.Markdown] [MarkupKind.Markdown]).2.2⟩

/-- C6: the negotiator strips exactly one trailing slash from rootUri
and performs no further normalization, and handshake payloads with
rootUri file:///a/b/ and file:///a/b, all other fields equal, produce
identical client configurations. -/
theorem c6_rootUri_trailing_slash :
    (∀ (p : InitializeParams) (s : Str),
      (LSPClientConfiguration.fromParams { p with rootUri := some s }).rootUri =
        (if s.getLast? = some '/' then s.dropLast else s)) ∧
    (∀ p : InitializeParams,
      LSPClientConfiguration.fromParams
          { p with rootUri := some ("file:///a/b/".toList) } =
        LSPClientConfiguration.fromParams
          { p with rootUri := some ("file:///a/b".toList) }) := by
  constructor
  · intro p s
    rfl
  · intro p
    unfold LSPClientConfiguration.fromParams
    congr 1

/-- C7: installing the client configuration into an empty slot
succeeds; a second call raises the programming-error fault and leaves
the previously installed configuration unchanged. -/
theorem c7_set_client_config (cfg cfgSecond : LSPClientConfiguration) :
    setClientConfigStep none cfg = (.ok, some cfg) ∧
    setClientConfigStep (some cfg) cfgSecond =
      (.raised setClientConfigMsg, some cfg) :=
  ⟨rfl, rfl⟩

/-- C8: `fileRef2Uri` returns the placeholder for a nonexistent
reference; for a payload file it returns the synthetic-scheme URI when
the client supports it and the bare internal path otherwise; for any
other existing file it returns `localName2Remote` of the path. -/
theorem c8_fileRef2Uri_cases (cfg : LSPConfiguration) (gs : GlobalState)
    (file : Nat) :
    (gs file = none → fileRef2Uri cfg gs file = some ("???".toList)) ∧
    (∀ fd : FileData, gs file = some fd → fd.payload = true →
      fileRef2Uri cfg gs file =
        (if cfg.clientConfig.enableSorbetURIs then
          some (sorbetScheme ++ fd.path)
         else some fd.path)) ∧
    (∀ fd : FileData, gs file = some fd → fd.payload = false →
      fileRef2Uri cfg gs file = localName2Remote cfg fd.path) := by
  refine ⟨?_, ?_, ?_⟩
  · intro h
    unfold fileRef2Uri
    rw [h]
  · intro fd h hp
    unfold fileRef2Uri
    rw [h]
    simp [hp]
  · intro fd h hp
    unfold fileRef2Uri
    rw [h]
    simp [hp]

/-- C8 witness: the three cases on a concrete file table, with a
client lacking synthetic-scheme support (the payload file renders as
its bare internal path). -/
theorem c8_fileRef2Uri_cases_witness :
    fileRef2Uri cfgEmptyRoot gsW 0 = some ("???".toList) ∧
    fileRef2Uri cfgEmptyRoot gsW 1 =
      (if cfgEmptyRoot.clientConfig.enableSorbetURIs then
        some (sorbetScheme ++ "pay.rbi".toList)
       else some ("pay.rbi".toList)) ∧
    fileRef2Uri cfgEmptyRoot gsW 2 =
      localName2Remote cfgEmptyRoot ("/root/a.rb".toList) :=
  ⟨(c8_fileRef2Uri_cases cfgEmptyRoot gsW 0).1 rfl,
    (c8_fileRef2Uri_cases cfgEmptyRoot gsW 1).2.1
      { path := "pay.rbi".toList, payload := true } rfl rfl,
    (c8_fileRef2Uri_cases cfgEmptyRoot gsW 2).2.2
      { path := "/root/a.rb".toList, payload := false } rfl rfl⟩

/-- C9: `lspPos2Loc` increments line and character by one (0-based
protocol to 1-based internal convention), resolves the byte offset
through the external table, and produces a zero-width location; the
origin position maps to internal line 1, column 1. -/
theorem c9_lspPos2Loc (posToOffset : LocDetail → Nat) (fref : Nat)
    (pos : Position) :
    (lspPos2Loc posToOffset fref pos).beginPos =
      (lspPos2Loc posToOffset fref pos).endPos ∧
    lspPos2Loc posToOffset fref pos =
      { fref := fref,
        beginPos := posToOffset { line := pos.line + 1,
                                  column := pos.character + 1 },
        endPos := posToOffset { line := pos.line + 1,
                                column := pos.character + 1 } } ∧
    lspReqPos { line := 0, character := 0 } = { line := 1, column := 1 } :=
  ⟨rfl, rfl, rfl⟩

/-- C10: with an empty client rootUri every URI trivially starts with
the rootUri, so the logged identity-fallback branch is unreachable and
every URI goes through the resolution path, whatever the value of
`enableSorbetURIs`. -/
theorem c10_empty_rootUri_no_fallback (cfg : LSPConfiguration) (uri : Str)
    (h : cfg.clientConfig.rootUri = []) :
    ¬ unrecognizedUri cfg uri ∧
    remoteName2Local cfg uri = resolveUri cfg uri := by
  have hp : cfg.clientConfig.rootUri <+: uri := h ▸ ⟨uri, rfl⟩
  have hnu : ¬ unrecognizedUri cfg uri := fun hu => hu.1 hp
  refine ⟨hnu, ?_⟩
  unfold remoteName2Local
  rw [if_neg hnu]

/-- C10 witness: a concrete URI under the empty-rootUri config. -/
theorem c10_empty_rootUri_no_fallback_witness :
    cfgEmptyRoot.clientConfig.rootUri = [] ∧
    ¬ unrecognizedUri cfgEmptyRoot ("foo.rb".toList) ∧
    remoteName2Local cfgEmptyRoot ("foo.rb".toList) =
      resolveUri cfgEmptyRoot ("foo.rb".toList) :=
  ⟨rfl, (c10_empty_rootUri_no_fallback cfgEmptyRoot _ rfl).1,
    (c10_empty_rootUri_no_fallback cfgEmptyRoot _ rfl).2⟩

end SorbetLSP
